import Mathlib

/-!
Shallow embedding of the control core of the ucb-ee192 simulator repository:
the Tripwire and Car classes of carInterface.py, and the line-camera error
estimator, PID control loop and lap-sequencing main loop of controller.py.
Python floats are modelled as exact rationals; the stderr diagnostics are
modelled as Boolean warning flags in the return values.
-/

namespace CarSim

/-- Tripwire.check_tripped (carInterface.py lines 18-27): given the stored
last_state and the current proximity level, returns the tripped flag
(true exactly on a rising edge) together with the new stored last_state. -/
def check_tripped (last_state in_proximity : Bool) : Bool × Bool :=
  (!last_state && in_proximity, in_proximity)

/-- Repeated polling of check_tripped over a sequence of proximity levels,
threading the stored last_state; returns the list of tripped results.
The constructor (carInterface.py line 16) initializes last_state to false. -/
def runTripwire : Bool → List Bool → List Bool
  | _, [] => []
  | last, l :: ls =>
    let r := check_tripped last l
    r.1 :: runTripwire r.2 ls

/-- The steering-related mutable state of Car (carInterface.py lines 76-82). -/
structure CarState where
  steering_limit : ℚ
  steering_slew_rate : ℚ
  steering_deadband : ℚ
  steering_state : ℚ
deriving DecidableEq

/-- The validation part of Car.__init__ (carInterface.py lines 34-40) together
with the field initialization (lines 76-82): a steering_limit other than 30 is
overridden to 30 and a steering_slew_rate other than 60/0.016 is overridden to
60/0.016, each with a stderr diagnostic, modelled as the two Boolean flags in
the result. The declared default value of steering_slew_rate is 60/0.16. -/
def Car.init (steering_limit : ℚ := 30) (steering_slew_rate : ℚ := 60 / 0.16) :
    CarState × Bool × Bool :=
  let limWarn := decide (steering_limit ≠ 30)
  let lim := if steering_limit ≠ 30 then (30 : ℚ) else steering_limit
  let slewWarn := decide (steering_slew_rate ≠ 60 / 0.016)
  let slew := if steering_slew_rate ≠ 60 / 0.016 then (60 / 0.016 : ℚ)
    else steering_slew_rate
  (⟨lim, slew, 1, 0⟩, limWarn, slewWarn)

/-- The result of one Car.set_steering call: the updated car state, the
returned angle, and the three possible stderr diagnostics (high dt,
steering limit drift, slew rate drift) as Boolean flags. -/
structure SteerResult where
  car : CarState
  angle : ℚ
  warn_dt : Bool
  warn_limit : Bool
  warn_slew : Bool
deriving DecidableEq

/-- Car.set_steering (carInterface.py lines 177-198): clamp dt to 0.01 when it
exceeds 0.011, force steering_limit back to 30 and steering_slew_rate back to
60/0.016 when they drifted, slew-limit the commanded angle around
steering_state by dt times the slew rate, clamp to the limit, store and
return the resulting angle. -/
def set_steering (car : CarState) (angle_cmd dt : ℚ) : SteerResult :=
  let warn_dt := decide (dt > 0.011)
  let dt := if dt > 0.011 then (0.01 : ℚ) else dt
  let warn_limit := decide (car.steering_limit ≠ 30)
  let limit := if car.steering_limit ≠ 30 then (30 : ℚ) else car.steering_limit
  let warn_slew := decide (car.steering_slew_rate ≠ 60 / 0.016)
  let slew := if car.steering_slew_rate ≠ 60 / 0.016 then (60 / 0.016 : ℚ)
    else car.steering_slew_rate
  let max_angle_change := dt * slew
  let angle := max (min angle_cmd (car.steering_state + max_angle_change))
    (car.steering_state - max_angle_change)
  let angle2 := max (min angle limit) (-limit)
  (⟨⟨limit, slew, car.steering_deadband, angle2⟩, angle2,
    warn_dt, warn_limit, warn_slew⟩)

/-- Car.set_steering_fast (carInterface.py lines 169-175): despite the
docstring announcing no steering angle rate limiting, the body only logs and
then delegates to set_steering unchanged. -/
def set_steering_fast (car : CarState) (angle_cmd dt : ℚ) : SteerResult :=
  set_steering car angle_cmd dt

/-- Modelled from the spec: the fast variant as the specification describes
it, with the same clamp to the interval from -limit_deg to limit_deg but no
rate limit, independent of the stored steering_state. Stated only to compare
against the source set_steering_fast. -/
def set_steering_fast_spec (car : CarState) (angle_cmd : ℚ) : ℚ :=
  max (min angle_cmd car.steering_limit) (-car.steering_limit)

/-- Car.set_steering_limit (carInterface.py lines 223-228): prints a stderr
diagnostic when the argument differs from 30 and otherwise has no effect; it
assigns no field. Returns the unchanged state and the diagnostic flag. -/
def set_steering_limit (car : CarState) (steering_limit : ℚ) : CarState × Bool :=
  (car, decide (steering_limit ≠ 30))

/-- The fixed intensity threshold of controller.py line 60. -/
def INTENSITY_THRESHOLD : ℤ := 192

/-- The loop body of SimulationAssignment.get_line_camera_error
(controller.py lines 62-67): accumulate the index into weighted_sum and count
into element_sum for each pixel strictly above the threshold. -/
def scanStep (acc : ℕ × ℕ) (p : ℕ × ℤ) : ℕ × ℕ :=
  if p.2 > INTENSITY_THRESHOLD then (acc.1 + p.1, acc.2 + 1) else acc

/-- SimulationAssignment.get_line_camera_error (controller.py lines 47-70):
index-weighted centroid of the pixels strictly above the threshold, minus 63,
with 0 returned when no pixel qualifies. -/
def get_line_camera_error (image : List ℤ) : ℚ :=
  let r := image.enum.foldl scanStep (0, 0)
  if r.2 = 0 then 0 else (r.1 : ℚ) / (r.2 : ℚ) - 63

/-- The indices of the pixels strictly above the threshold, in order; the
specification formula for the centroid is stated through this list. -/
def aboveIdx (image : List ℤ) : List ℕ :=
  (image.enum.filter fun p => p.2 > INTENSITY_THRESHOLD).map Prod.fst

/-- The PID state of SimulationAssignment (controller.py lines 24-25):
old_lat_err and int_err. -/
structure ControlState where
  old_lat_err : ℚ
  int_err : ℚ
deriving DecidableEq

/-- The PID section of SimulationAssignment.control_loop (controller.py lines
102-115), with the gains kp, kd, ki lifted to parameters; the source fixes
them to the values recorded in controlLoopGains. Computes the derivative with
a dt > 0 guard, accumulates the integral unconditionally, updates the state
and returns the target steering angle. -/
def pidStep (kp kd ki : ℚ) (s : ControlState) (lat_err dt : ℚ) :
    ControlState × ℚ :=
  let lat_vel := if dt > 0 then (lat_err - s.old_lat_err) / dt else 0
  let int_err := s.int_err + dt * lat_err
  let target := -kp * lat_err - kd * lat_vel - ki * int_err
  (⟨lat_err, int_err⟩, target)

/-- The gains hardcoded in control_loop (controller.py lines 112-114):
kp = 200, kd = 20, ki = 0. -/
def controlLoopGains : ℚ × ℚ × ℚ := (200, 20, 0)

/-- The per-tick inputs of the lap loop in the controller.py main body:
whether last_sim_time exceeded maxtime on this tick, and the two tripwire
rising-edge results. -/
structure LapEvent where
  past_maxtime : Bool
  finish_edge : Bool
  stop_edge : Bool
deriving DecidableEq

/-- The lap loop state of the controller.py main body (lines 210-211):
the done flag and the completed_laps counter, starting at -1. -/
structure LapState where
  done : Bool
  completed_laps : ℤ
deriving DecidableEq

/-- One iteration of the lap loop body (controller.py lines 213-237): set done
past maxtime, increment completed_laps on a finish-wire edge, and on a
stop-wire edge with completed_laps > 0 set done when completed_laps has
reached target_laps and target_laps is not the run-forever sentinel 0. -/
def lapStep (target_laps : ℤ) (s : LapState) (e : LapEvent) : LapState :=
  let done1 := s.done || e.past_maxtime
  let laps := if e.finish_edge then s.completed_laps + 1 else s.completed_laps
  let done2 := if e.stop_edge = true ∧ laps > 0 ∧ laps ≥ target_laps ∧ target_laps ≠ 0
    then true else done1
  ⟨done2, laps⟩

/-- The driver while-loop (controller.py line 213): events are processed until
done becomes true, after which the loop exits and the state is final. -/
def lapRun (target_laps : ℤ) : LapState → List LapEvent → LapState
  | s, [] => s
  | s, e :: es =>
    if s.done then s else lapRun target_laps (lapStep target_laps s e) es

/-- The state after each tick of the driver loop: once done is set the loop
has exited, so the remaining entries repeat the final state. -/
def lapTrace (target_laps : ℤ) : LapState → List LapEvent → List LapState
  | _, [] => []
  | s, e :: es =>
    if s.done then s :: lapTrace target_laps s es
    else
      let s2 := lapStep target_laps s e
      s2 :: lapTrace target_laps s2 es

/-- The initial lap loop state (controller.py lines 210-211). -/
def lapInit : LapState := ⟨false, -1⟩

/-- A tick on which only the finish wire trips. -/
def finishEvent : LapEvent := ⟨false, true, false⟩

/-- A tick on which only the stopping wire trips. -/
def stopEvent : LapEvent := ⟨false, false, true⟩

/-- The effective dt used by set_steering after the sanity clamp of
carInterface.py lines 182-184. -/
def dtEff (dt : ℚ) : ℚ := if dt > 0.011 then (0.01 : ℚ) else dt

/-! ## Helper lemmas -/

lemma override_eq (x c : ℚ) : (if x ≠ c then c else x) = c := by
  split
  · rfl
  · next h => exact not_not.mp h

/-- Closed form of one set_steering call: the validated limit is 30, the
validated slew rate is 60/0.016, and the stored and returned angle is the
double clamp of the command. -/
lemma set_steering_eq (car : CarState) (cmd dt : ℚ) :
    set_steering car cmd dt =
      ⟨⟨30, 60 / 0.016, car.steering_deadband,
        max (min (max (min cmd (car.steering_state + dtEff dt * (60 / 0.016)))
          (car.steering_state - dtEff dt * (60 / 0.016))) 30) (-30)⟩,
        max (min (max (min cmd (car.steering_state + dtEff dt * (60 / 0.016)))
          (car.steering_state - dtEff dt * (60 / 0.016))) 30) (-30),
        decide (dt > 0.011), decide (car.steering_limit ≠ 30),
        decide (car.steering_slew_rate ≠ 60 / 0.016)⟩ := by
  simp only [set_steering, dtEff, override_eq]

lemma dtEff_pos {dt : ℚ} (h : 0 < dt) : 0 < dtEff dt := by
  unfold dtEff
  split
  · norm_num
  · exact h

lemma dtEff_le {dt : ℚ} (h : 0 < dt) : dtEff dt ≤ dt := by
  unfold dtEff
  split
  · next h2 => linarith
  · exact le_rfl

/-- The double clamp keeps the result within the 30 degree amplitude bound and
within m of the previous state, provided the previous state satisfies the
amplitude invariant. -/
lemma clamp_slew_bounds (s cmd m : ℚ) (hm : 0 ≤ m) (hs : |s| ≤ 30) :
    |max (min (max (min cmd (s + m)) (s - m)) 30) (-30)| ≤ 30 ∧
    |max (min (max (min cmd (s + m)) (s - m)) 30) (-30) - s| ≤ m := by
  obtain ⟨hs1, hs2⟩ := abs_le.mp hs
  set a1 := max (min cmd (s + m)) (s - m) with ha1
  have h1 : a1 ≤ s + m := max_le (min_le_right _ _) (by linarith)
  have h2 : s - m ≤ a1 := le_max_right _ _
  set a2 := max (min a1 30) (-30) with ha2
  have h3 : a2 ≤ 30 := max_le (min_le_right _ _) (by norm_num)
  have h4 : (-30 : ℚ) ≤ a2 := le_max_right _ _
  have h5 : a2 ≤ s + m := max_le (le_trans (min_le_left _ _) h1) (by linarith)
  have h6 : s - m ≤ a2 := le_trans (le_min h2 (by linarith)) (le_max_left _ _)
  exact ⟨abs_le.mpr ⟨h4, h3⟩, abs_le.mpr ⟨by linarith, by linarith⟩⟩

/-! ## Claim theorems -/

/-- C1: for every dt > 0 and every commanded angle, one set_steering call
returns an angle of magnitude at most the 30 degree limit, changes the stored
angle by at most dt times the slew rate 60/0.016 (so the claimed bound with
any nonnegative epsilon also holds), stores the returned angle as the new
steering_state, and preserves the amplitude invariant. -/
theorem C1_set_steering_bounds (car : CarState) (angle_cmd dt : ℚ)
    (hdt : 0 < dt) (hinv : |car.steering_state| ≤ 30) :
    |(set_steering car angle_cmd dt).angle| ≤ 30 ∧
    |(set_steering car angle_cmd dt).angle - car.steering_state| ≤
      dt * (60 / 0.016) ∧
    (set_steering car angle_cmd dt).car.steering_state =
      (set_steering car angle_cmd dt).angle ∧
    |(set_steering car angle_cmd dt).car.steering_state| ≤ 30 := by
  have hm : (0 : ℚ) ≤ dtEff dt * (60 / 0.016) :=
    mul_nonneg (dtEff_pos hdt).le (by norm_num)
  have hb := clamp_slew_bounds car.steering_state angle_cmd
    (dtEff dt * (60 / 0.016)) hm hinv
  rw [set_steering_eq]
  exact ⟨hb.1,
    le_trans hb.2 (mul_le_mul_of_nonneg_right (dtEff_le hdt) (by norm_num)),
    rfl, hb.1⟩

/-- Witness for C1 at a concrete input: dt = 1/100 > 0, previous angle 0
satisfies the invariant, and the call result is within the limit. -/
theorem C1_set_steering_bounds_witness :
    (0 : ℚ) < 1 / 100 ∧ |((⟨30, 60 / 0.016, 1, 0⟩ : CarState)).steering_state| ≤ 30 ∧
    |(set_steering ⟨30, 60 / 0.016, 1, 0⟩ 100 (1 / 100)).angle| ≤ 30 :=
  ⟨by norm_num, by norm_num,
    (C1_set_steering_bounds ⟨30, 60 / 0.016, 1, 0⟩ 100 (1 / 100)
      (by norm_num) (by norm_num)).1⟩

/-- C7: for dt > 0.011 the call clamps dt to the nominal 0.01 tick before
computing the allowed slew, so it behaves exactly as a call with dt = 0.01
and the realized change is bounded by 0.01 times the slew rate; the call
returns normally, with the high-dt diagnostic flag set. -/
theorem C7_high_dt_clamped (car : CarState) (cmd dt : ℚ)
    (h : dt > 0.011) (hinv : |car.steering_state| ≤ 30) :
    (set_steering car cmd dt).angle = (set_steering car cmd 0.01).angle ∧
    (set_steering car cmd dt).car = (set_steering car cmd 0.01).car ∧
    (set_steering car cmd dt).warn_dt = true ∧
    |(set_steering car cmd dt).angle - car.steering_state| ≤
      0.01 * (60 / 0.016) := by
  have he1 : dtEff dt = 0.01 := by unfold dtEff; rw [if_pos h]
  have he2 : dtEff (0.01 : ℚ) = 0.01 := by
    unfold dtEff
    rw [if_neg]
    norm_num
  have hb := clamp_slew_bounds car.steering_state cmd
    (dtEff dt * (60 / 0.016)) (by rw [he1]; norm_num) hinv
  rw [set_steering_eq, set_steering_eq, he1, he2]
  have hbb := hb.2
  rw [he1] at hbb
  exact ⟨rfl, rfl, decide_eq_true h, hbb⟩

/-- Witness for C7 at a concrete input: dt = 5 exceeds 0.011, the zero state
satisfies the invariant, and the diagnostic flag is set. -/
theorem C7_high_dt_clamped_witness :
    ((5 : ℚ) > 0.011) ∧ |((⟨30, 60 / 0.016, 1, 0⟩ : CarState)).steering_state| ≤ 30 ∧
    (set_steering ⟨30, 60 / 0.016, 1, 0⟩ 100 5).warn_dt = true :=
  ⟨by norm_num, by norm_num,
    (C7_high_dt_clamped ⟨30, 60 / 0.016, 1, 0⟩ 100 5
      (by norm_num) (by norm_num)).2.2.1⟩

/-- C8: for every value supplied to the constructor and after every
set_steering call, the live configuration has steering_limit 30 and
steering_slew_rate 60/0.016; a differing supplied value is overridden and the
corresponding diagnostic flag is raised exactly when the value differed. -/
theorem C8_constants_validated :
    (∀ lim slew : ℚ,
        (Car.init lim slew).1.steering_limit = 30 ∧
        (Car.init lim slew).1.steering_slew_rate = 60 / 0.016 ∧
        ((Car.init lim slew).2.1 = true ↔ lim ≠ 30) ∧
        ((Car.init lim slew).2.2 = true ↔ slew ≠ 60 / 0.016)) ∧
    (∀ (car : CarState) (cmd dt : ℚ),
        (set_steering car cmd dt).car.steering_limit = 30 ∧
        (set_steering car cmd dt).car.steering_slew_rate = 60 / 0.016 ∧
        ((set_steering car cmd dt).warn_limit = true ↔
          car.steering_limit ≠ 30) ∧
        ((set_steering car cmd dt).warn_slew = true ↔
          car.steering_slew_rate ≠ 60 / 0.016)) := by
  constructor
  · intro lim slew
    refine ⟨?_, ?_, ?_, ?_⟩ <;>
      simp [Car.init, override_eq]
  · intro car cmd dt
    rw [set_steering_eq]
    exact ⟨rfl, rfl, by simp, by simp⟩

/-- C3: the source set_steering_fast is definitionally the rate-limited
set_steering, contradicting its own docstring and the claim; at the failing
input (state 0, command 30, dt 0.001) it returns the slew-limited 3.75 while
the specified fast variant (amplitude clamp only) returns 30. -/
theorem C3_fast_variant_still_rate_limited :
    (∀ (car : CarState) (cmd dt : ℚ),
        set_steering_fast car cmd dt = set_steering car cmd dt) ∧
    (set_steering_fast ⟨30, 60 / 0.016, 1, 0⟩ 30 0.001).angle = 3.75 ∧
    set_steering_fast_spec ⟨30, 60 / 0.016, 1, 0⟩ 30 = 30 ∧
    (set_steering_fast ⟨30, 60 / 0.016, 1, 0⟩ 30 0.001).angle ≠
      set_steering_fast_spec ⟨30, 60 / 0.016, 1, 0⟩ 30 := by
  refine ⟨fun car cmd dt => rfl, ?_, ?_, ?_⟩ <;>
    norm_num [set_steering_fast, set_steering, set_steering_fast_spec]

/-- C6: polling the tripwire reports an event exactly at rising edges of the
level sequence (previous level false, current level true, with the stored
initial level as the level before index 0); on the level sequence
[false, true, true, false, true] from the initial stored level false, events
occur at indices 1 and 4 only. -/
theorem C6_tripwire_rising_edges :
    (∀ (last : Bool) (levels : List Bool),
        runTripwire last levels =
          List.zipWith (fun prev cur => !prev && cur) (last :: levels) levels) ∧
    runTripwire false [false, true, true, false, true] =
      [false, true, false, false, true] := by
  refine ⟨?_, by decide⟩
  intro last levels
  induction levels generalizing last with
  | nil => rfl
  | cons l ls ih => simp [runTripwire, check_tripped, ih]

/-- The completed lap counter after one lap loop iteration: incremented by
exactly 1 on a finish edge, unchanged otherwise. -/
lemma lapStep_laps (t : ℤ) (s : LapState) (e : LapEvent) :
    (lapStep t s e).completed_laps =
      s.completed_laps + (if e.finish_edge then 1 else 0) := by
  by_cases h : e.finish_edge = true <;> simp [lapStep, h]

lemma lapStep_mono (t : ℤ) (s : LapState) (e : LapEvent) :
    s.completed_laps ≤ (lapStep t s e).completed_laps := by
  rw [lapStep_laps]
  split <;> omega

lemma lapTrace_chain (t : ℤ) (s : LapState) (es : List LapEvent) :
    List.Chain' (fun a b => a.completed_laps ≤ b.completed_laps)
      (s :: lapTrace t s es) := by
  induction es generalizing s with
  | nil => simp [lapTrace]
  | cons e es ih =>
    simp only [lapTrace]
    split
    · exact List.chain'_cons.mpr ⟨le_rfl, ih s⟩
    · exact List.chain'_cons.mpr ⟨lapStep_mono t s e, ih _⟩

/-- Counterexample to C2 as stated: with target_laps = 1 the run is already
done after the first stop edge (the third event) and was not done before it,
so DONE is not reached exactly after the second stop edge. -/
theorem C2_counterexample :
    (lapRun 1 lapInit [finishEvent, finishEvent, stopEvent]).done = true ∧
    (lapRun 1 lapInit [finishEvent, finishEvent]).done = false := by
  decide

/-- C2 amended: the edge sequence [finish, finish, stop, finish, stop] with
target_laps = 1 reaches DONE exactly after the first stop edge (the third
event), with completed_laps = 1 at that point and afterwards; along every run
completed_laps never decreases, increasing by exactly 1 per finish edge. -/
theorem C2_lap_sequencer :
    ((lapTrace 1 lapInit
        [finishEvent, finishEvent, stopEvent, finishEvent, stopEvent]).map
          (fun s => (s.done, s.completed_laps)) =
      [(false, 0), (false, 1), (true, 1), (true, 1), (true, 1)]) ∧
    (∀ (t : ℤ) (s : LapState) (es : List LapEvent),
        List.Chain' (fun a b => a.completed_laps ≤ b.completed_laps)
          (s :: lapTrace t s es)) ∧
    (∀ (t : ℤ) (s : LapState) (e : LapEvent),
        (lapStep t s e).completed_laps =
          s.completed_laps + (if e.finish_edge then 1 else 0)) :=
  ⟨by decide, lapTrace_chain, lapStep_laps⟩

/-- C9: with the target_laps = 0 sentinel, the stop-edge termination branch is
never taken: starting from a not-done state, processing any event sequence on
which the external maxtime cutoff never fires leaves done false, so the run
continues until externally terminated. -/
theorem C9_target_zero_never_done (s : LapState) (es : List LapEvent)
    (hs : s.done = false) (hmax : ∀ e ∈ es, e.past_maxtime = false) :
    (lapRun 0 s es).done = false := by
  induction es generalizing s with
  | nil => exact hs
  | cons e es ih =>
    rw [lapRun, if_neg (by rw [hs]; exact Bool.false_ne_true)]
    have hstep : (lapStep 0 s e).done = false := by
      have hme : e.past_maxtime = false := hmax e (List.mem_cons_self e es)
      simp [lapStep, hs, hme]
    exact ih _ hstep fun e2 he2 => hmax e2 (List.mem_cons_of_mem _ he2)

/-- Witness for C9 at a concrete input: the initial state is not done and a
run over finish and stop edges with target_laps = 0 never becomes done. -/
theorem C9_target_zero_never_done_witness :
    lapInit.done = false ∧
    (lapRun 0 lapInit
      [finishEvent, finishEvent, stopEvent, finishEvent, stopEvent]).done =
        false :=
  ⟨rfl, C9_target_zero_never_done lapInit
    [finishEvent, finishEvent, stopEvent, finishEvent, stopEvent]
    rfl (by decide)⟩

/-- C5: the PID step computes the target angle by the stated formula, with the
derivative guarded by dt > 0 and the integral accumulated unconditionally;
from zero state, a step with kp 200, kd 0, ki 0 at error 0.1 and dt 0.01
returns exactly -20, and the next step with kd 20 at error 0 returns exactly
200. -/
theorem C5_pid_step :
    (∀ (kp kd ki : ℚ) (s : ControlState) (lat_err dt : ℚ),
        (pidStep kp kd ki s lat_err dt).2 =
          -(kp * lat_err) -
            kd * (if dt > 0 then (lat_err - s.old_lat_err) / dt else 0) -
            ki * (s.int_err + dt * lat_err) ∧
        (pidStep kp kd ki s lat_err dt).1.int_err = s.int_err + dt * lat_err ∧
        (pidStep kp kd ki s lat_err dt).1.old_lat_err = lat_err) ∧
    (pidStep 200 0 0 ⟨0, 0⟩ 0.1 0.01).2 = -20 ∧
    (pidStep 200 20 0 (pidStep 200 0 0 ⟨0, 0⟩ 0.1 0.01).1 0 0.01).2 = 200 := by
  refine ⟨?_, ?_, ?_⟩
  · intro kp kd ki s lat_err dt
    refine ⟨?_, rfl, rfl⟩
    simp only [pidStep]
    ring_nf
  · norm_num [pidStep]
  · norm_num [pidStep]

/-- The source loop accumulator equals the filtered index sum and count. -/
lemma scan_foldl (l : List (ℕ × ℤ)) (a b : ℕ) :
    l.foldl scanStep (a, b) =
      (a + ((l.filter fun p => p.2 > INTENSITY_THRESHOLD).map Prod.fst).sum,
       b + (l.filter fun p => p.2 > INTENSITY_THRESHOLD).length) := by
  induction l generalizing a b with
  | nil => simp
  | cons p l ih =>
    by_cases h : p.2 > INTENSITY_THRESHOLD
    · have hs : scanStep (a, b) p = (a + p.1, b + 1) := by simp [scanStep, h]
      rw [List.foldl_cons, hs, ih, List.filter_cons_of_pos]
      · simp only [List.map_cons, List.sum_cons, List.length_cons,
          Prod.mk.injEq]
        omega
      · simpa using h
    · have hs : scanStep (a, b) p = (a, b) := by simp [scanStep, h]
      rw [List.foldl_cons, hs, ih, List.filter_cons_of_neg]
      simpa using h

/-- A pair in the enumerated list carries a value of the original list. -/
lemma snd_mem_of_mem_enumFrom {l : List ℤ} {n : ℕ} {p : ℕ × ℤ}
    (hp : p ∈ List.enumFrom n l) : p.2 ∈ l := by
  induction l generalizing n with
  | nil => simp [List.enumFrom] at hp
  | cons x l ih =>
    rcases List.mem_cons.mp hp with h | h
    · rw [h]
      exact List.mem_cons_self x l
    · exact List.mem_cons_of_mem _ (ih h)

/-- C4: the lane-error estimate equals the index-weighted centroid of the
samples strictly above threshold 192 minus the center offset 63; a scan with
no sample above threshold yields exactly 0, and a scan whose only sample
above threshold sits at index i yields exactly i - 63. -/
theorem C4_line_camera_error (image : List ℤ) :
    (get_line_camera_error image =
        if (aboveIdx image).length = 0 then 0
        else ((aboveIdx image).sum : ℚ) / ((aboveIdx image).length : ℚ) - 63) ∧
    ((∀ x ∈ image, x ≤ 192) → get_line_camera_error image = 0) ∧
    (∀ i : ℕ, aboveIdx image = [i] →
        get_line_camera_error image = (i : ℚ) - 63) := by
  have hmain : get_line_camera_error image =
      if (aboveIdx image).length = 0 then 0
      else ((aboveIdx image).sum : ℚ) / ((aboveIdx image).length : ℚ) - 63 := by
    unfold get_line_camera_error aboveIdx
    rw [List.enum, scan_foldl]
    simp only [Nat.zero_add, List.length_map]
  refine ⟨hmain, ?_, ?_⟩
  · intro hall
    have hnil : (List.enumFrom 0 image).filter
        (fun p => p.2 > INTENSITY_THRESHOLD) = [] := by
      rw [List.filter_eq_nil_iff]
      intro p hp
      have hmem : p.2 ∈ image := snd_mem_of_mem_enumFrom hp
      have := hall p.2 hmem
      simp only [INTENSITY_THRESHOLD, decide_eq_true_eq]
      omega
    rw [hmain]
    simp [aboveIdx, List.enum, hnil]
  · intro i hi
    rw [hmain, hi]
    norm_num

/-- Witness for C4 at concrete inputs: a scan whose single bright pixel sits
at index 1 yields 1 - 63, and an all-dark scan yields 0. -/
theorem C4_line_camera_error_witness :
    get_line_camera_error [(0 : ℤ), 250, 100] = (1 : ℚ) - 63 ∧
    get_line_camera_error [(-5 : ℤ), 100, 192] = 0 :=
  ⟨(C4_line_camera_error [0, 250, 100]).2.2 1 (by decide),
    (C4_line_camera_error [(-5), 100, 192]).2.1 (by decide)⟩

/-- C10: Car.set_steering_limit leaves the car state unchanged for every
argument value, and its only effect is the diagnostic flag, raised exactly
when the argument differs from 30. -/
theorem C10_set_steering_limit_pure (car : CarState) (v : ℚ) :
    (set_steering_limit car v).1 = car ∧
    ((set_steering_limit car v).2 = true ↔ v ≠ 30) :=
  ⟨rfl, by simp [set_steering_limit]⟩

end CarSim
